import Mathlib

/-!
# Verification of the gosec rule-catalog and rule-selection engine

Shallow embedding of src/rules/rulelist.go: the rule catalog, the filter
predicate factory (NewRuleFilter), the rule set generator (Generate) and
the projection accessor (RulesInfo), together with theorems checking the
specification's claims about them.

Go maps are modelled as association lists (List (String × α)) with an
insert operation that overwrites the binding of an existing key in place
and appends fresh keys at the end; lookup returns the unique binding.
Since every Go map produced by the code binds each key at most once, list
equality of the models implies extensional equality of the maps.
-/

set_option maxHeartbeats 1000000

namespace rules

/-- The opaque constructor capability (gosec.RuleBuilder in Go). The rule
engine never invokes it, only threads it through, so it is modelled as an
enumeration of the distinct constructor functions named in the catalog. -/
inductive RuleBuilder where
  | NewHardcodedCredentials
  | NewBindsToAllNetworkInterfaces
  | NewUsingUnsafe
  | NewNoErrorCheck
  | NewSSHHostKey
  | NewSSRFCheck
  | NewPprofCheck
  | NewIntegerOverflowCheck
  | NewDecompressionBombCheck
  | NewDirectoryTraversal
  | NewSlowloris
  | NewHTTPServeWithoutTimeouts
  | NewSQLStrFormat
  | NewSQLStrConcat
  | NewTemplateCheck
  | NewSubproc
  | NewMkdirPerms
  | NewFilePerms
  | NewBadTempFile
  | NewReadFile
  | NewArchive
  | NewWritePerms
  | NewOsCreatePerms
  | NewUsesWeakCryptographyHash
  | NewIntermediateTLSCheck
  | NewWeakKeyStrength
  | NewWeakRandCheck
  | NewUsesWeakCryptographyEncryption
  | NewUsesWeakDeprecatedCryptographyHash
  | NewBlocklistedImportMD5
  | NewBlocklistedImportDES
  | NewBlocklistedImportRC4
  | NewBlocklistedImportCGI
  | NewBlocklistedImportSHA1
  | NewBlocklistedImportMD4
  | NewBlocklistedImportRIPEMD160
  | NewImplicitAliasing
  deriving DecidableEq, Repr

/-- Model of a Go map from string keys: an association list where insert
overwrites an existing binding in place and appends a fresh key. -/
def mapInsert {α : Type} (m : List (String × α)) (k : String) (v : α) :
    List (String × α) :=
  match m with
  | [] => [(k, v)]
  | (k2, v2) :: rest =>
    if k2 = k then (k, v) :: rest else (k2, v2) :: mapInsert rest k v

/-- Lookup in the Go-map model: the binding of the first matching key. -/
def mapLookup {α : Type} (m : List (String × α)) (k : String) : Option α :=
  match m with
  | [] => none
  | (k2, v2) :: rest => if k2 = k then some v2 else mapLookup rest k

/-- The key set of a Go-map model, in insertion order. -/
def mapKeys {α : Type} (m : List (String × α)) : List String :=
  m.map Prod.fst

/-- RuleDefinition contains the description of a rule and a mechanism to
create it (rulelist.go lines 21-25). -/
structure RuleDefinition where
  ID : String
  Description : String
  Create : RuleBuilder
  deriving DecidableEq, Repr

/-- RuleList contains a mapping of rule IDs to rule definitions and a
mapping of rule IDs to whether rules are suppressed (lines 29-32). -/
structure RuleList where
  Rules : List (String × RuleDefinition)
  RuleSuppressed : List (String × Bool)
  deriving DecidableEq, Repr

/-- RulesInfo returns all the create methods and the rule suppressed map
for a given list (lines 36-42): the builders map is built by inserting
def.Create under the key def.ID for every stored definition. -/
def RuleList.RulesInfo (rl : RuleList) :
    List (String × RuleBuilder) × List (String × Bool) :=
  (rl.Rules.foldl (fun builders kv => mapInsert builders kv.2.ID kv.2.Create) [],
   rl.RuleSuppressed)

/-- RuleFilter can be used to include or exclude a rule depending on the
return value of the function (line 46). -/
def RuleFilter : Type := String → Bool

/-- NewRuleFilter is a closure that will include/exclude the rule IDs based
on the supplied boolean value (lines 50-61). -/
def NewRuleFilter (action : Bool) (ruleIDs : List String) : RuleFilter :=
  let rulelist := ruleIDs.foldl (fun m rule => mapInsert m rule true) []
  fun rule =>
    match mapLookup rulelist rule with
    | some _ => action
    | none => !action

open RuleBuilder in
/-- The hard-coded rule catalog (the local rules slice of Generate,
lines 65-114). -/
def rulesCatalog : List RuleDefinition := [
  ⟨"G101", "Look for hardcoded credentials", NewHardcodedCredentials⟩,
  ⟨"G102", "Bind to all interfaces", NewBindsToAllNetworkInterfaces⟩,
  ⟨"G103", "Audit the use of unsafe block", NewUsingUnsafe⟩,
  ⟨"G104", "Audit errors not checked", NewNoErrorCheck⟩,
  ⟨"G106", "Audit the use of ssh.InsecureIgnoreHostKey function", NewSSHHostKey⟩,
  ⟨"G107", "Url provided to HTTP request as taint input", NewSSRFCheck⟩,
  ⟨"G108", "Profiling endpoint is automatically exposed", NewPprofCheck⟩,
  ⟨"G109", "Converting strconv.Atoi result to int32/int16", NewIntegerOverflowCheck⟩,
  ⟨"G110", "Detect io.Copy instead of io.CopyN when decompression", NewDecompressionBombCheck⟩,
  ⟨"G111", "Detect http.Dir('/') as a potential risk", NewDirectoryTraversal⟩,
  ⟨"G112", "Detect ReadHeaderTimeout not configured as a potential risk", NewSlowloris⟩,
  ⟨"G114", "Use of net/http serve function that has no support for setting timeouts", NewHTTPServeWithoutTimeouts⟩,
  ⟨"G201", "SQL query construction using format string", NewSQLStrFormat⟩,
  ⟨"G202", "SQL query construction using string concatenation", NewSQLStrConcat⟩,
  ⟨"G203", "Use of unescaped data in HTML templates", NewTemplateCheck⟩,
  ⟨"G204", "Audit use of command execution", NewSubproc⟩,
  ⟨"G301", "Poor file permissions used when creating a directory", NewMkdirPerms⟩,
  ⟨"G302", "Poor file permissions used when creation file or using chmod", NewFilePerms⟩,
  ⟨"G303", "Creating tempfile using a predictable path", NewBadTempFile⟩,
  ⟨"G304", "File path provided as taint input", NewReadFile⟩,
  ⟨"G305", "File path traversal when extracting zip archive", NewArchive⟩,
  ⟨"G306", "Poor file permissions used when writing to a file", NewWritePerms⟩,
  ⟨"G307", "Poor file permissions used when creating a file with os.Create", NewOsCreatePerms⟩,
  ⟨"G401", "Detect the usage of MD5 or SHA1", NewUsesWeakCryptographyHash⟩,
  ⟨"G402", "Look for bad TLS connection settings", NewIntermediateTLSCheck⟩,
  ⟨"G403", "Ensure minimum RSA key length of 2048 bits", NewWeakKeyStrength⟩,
  ⟨"G404", "Insecure random number source (rand)", NewWeakRandCheck⟩,
  ⟨"G405", "Detect the usage of DES or RC4", NewUsesWeakCryptographyEncryption⟩,
  ⟨"G406", "Detect the usage of deprecated MD4 or RIPEMD160", NewUsesWeakDeprecatedCryptographyHash⟩,
  ⟨"G501", "Import blocklist: crypto/md5", NewBlocklistedImportMD5⟩,
  ⟨"G502", "Import blocklist: crypto/des", NewBlocklistedImportDES⟩,
  ⟨"G503", "Import blocklist: crypto/rc4", NewBlocklistedImportRC4⟩,
  ⟨"G504", "Import blocklist: net/http/cgi", NewBlocklistedImportCGI⟩,
  ⟨"G505", "Import blocklist: crypto/sha1", NewBlocklistedImportSHA1⟩,
  ⟨"G506", "Import blocklist: golang.org/x/crypto/md4", NewBlocklistedImportMD4⟩,
  ⟨"G507", "Import blocklist: golang.org/x/crypto/ripemd160", NewBlocklistedImportRIPEMD160⟩,
  ⟨"G601", "Implicit memory aliasing in RangeStmt", NewImplicitAliasing⟩]

/-- The IDs of the hard-coded catalog, in catalog order. -/
def catalogIDs : List String := rulesCatalog.map (fun r => r.ID)

/-- The inner filter loop of Generate for one catalog entry (lines
122-128), threading the suppressed map. Returns the updated map and
whether the labeled continue fired (the entry is skipped from the rule
map). On a match the suppressed flag is written true; when
trackSuppressions is false the loop then exits early. -/
def applyFilters (trackSuppressions : Bool) (ruleID : String)
    (filters : List RuleFilter) (m : List (String × Bool)) :
    List (String × Bool) × Bool :=
  match filters with
  | [] => (m, false)
  | f :: rest =>
    if f ruleID then
      let m2 := mapInsert m ruleID true
      if !trackSuppressions then (m2, true)
      else applyFilters trackSuppressions ruleID rest m2
    else applyFilters trackSuppressions ruleID rest m

/-- One iteration of the outer RULES loop of Generate (lines 119-131):
initialise the suppressed flag to false, run the filters, and add the
entry to the rule map unless the early exit fired. -/
def generateStep (trackSuppressions : Bool) (filters : List RuleFilter)
    (acc : List (String × RuleDefinition) × List (String × Bool))
    (rule : RuleDefinition) :
    List (String × RuleDefinition) × List (String × Bool) :=
  let m0 := mapInsert acc.2 rule.ID false
  let res := applyFilters trackSuppressions rule.ID filters m0
  if res.2 then (acc.1, res.1)
  else (mapInsert acc.1 rule.ID rule, res.1)

/-- Generate the list of rules to use (lines 64-133). -/
def Generate (trackSuppressions : Bool) (filters : List RuleFilter) :
    RuleList :=
  let res := rulesCatalog.foldl (generateStep trackSuppressions filters) ([], [])
  { Rules := res.1, RuleSuppressed := res.2 }

/-- Whether at least one filter in the list matches the given rule ID. -/
def matchedAny (filters : List RuleFilter) (id : String) : Bool :=
  filters.any (fun f => f id)

/-- A RuleList that stores a definition under a key different from the
definition's own ID field. Generate never produces such a list, but the
RulesInfo accessor accepts any RuleList. -/
def badRuleList : RuleList :=
  { Rules := [("G101",
      ⟨"G999", "mislabelled entry", RuleBuilder.NewHardcodedCredentials⟩)],
    RuleSuppressed := [] }

/-! ## Basic lemmas about the Go-map model -/

theorem mapLookup_mapInsert {α : Type} (m : List (String × α)) (k k2 : String)
    (v : α) :
    mapLookup (mapInsert m k v) k2 = if k = k2 then some v else mapLookup m k2 := by
  induction m with
  | nil => simp [mapInsert, mapLookup]
  | cons hd tl ih =>
    obtain ⟨k3, v3⟩ := hd
    by_cases h3 : k3 = k
    · subst h3
      by_cases h2 : k3 = k2 <;> simp [mapInsert, mapLookup, h2]
    · by_cases h2 : k3 = k2
      · subst h2
        simp [mapInsert, mapLookup, h3, Ne.symm h3]
      · simp [mapInsert, mapLookup, h3, h2, ih]

theorem mapInsert_mapInsert {α : Type} (m : List (String × α)) (k : String)
    (v v2 : α) :
    mapInsert (mapInsert m k v) k v2 = mapInsert m k v2 := by
  induction m with
  | nil => simp [mapInsert]
  | cons hd tl ih =>
    obtain ⟨k3, v3⟩ := hd
    by_cases h3 : k3 = k
    · subst h3
      simp [mapInsert]
    · simp [mapInsert, h3, ih]

theorem mapInsert_fresh {α : Type} (m : List (String × α)) (k : String) (v : α)
    (h : k ∉ mapKeys m) :
    mapInsert m k v = m ++ [(k, v)] := by
  induction m with
  | nil => simp [mapInsert]
  | cons hd tl ih =>
    obtain ⟨k3, v3⟩ := hd
    simp only [mapKeys, List.map_cons, List.mem_cons] at h
    push_neg at h
    have h1 : k3 ≠ k := fun hh => h.1 hh.symm
    simp only [mapInsert, if_neg h1, List.cons_append, List.cons.injEq, true_and]
    exact ih h.2

theorem mapKeys_mapInsert_mem {α : Type} (m : List (String × α)) (k k2 : String)
    (v : α) :
    k2 ∈ mapKeys (mapInsert m k v) ↔ k2 = k ∨ k2 ∈ mapKeys m := by
  induction m with
  | nil => simp [mapInsert, mapKeys]
  | cons hd tl ih =>
    obtain ⟨k3, v3⟩ := hd
    by_cases h3 : k3 = k
    · subst h3
      simp [mapInsert, mapKeys]
    · simp only [mapKeys, List.map_cons, List.mem_cons] at ih ⊢
      rw [mapInsert, if_neg h3]
      simp only [List.map_cons, List.mem_cons]
      tauto

/-! ## Closed form of the generator -/

theorem applyFilters_eq (trackSuppressions : Bool) (ruleID : String)
    (filters : List RuleFilter) (m : List (String × Bool)) :
    applyFilters trackSuppressions ruleID filters m =
      ((if matchedAny filters ruleID then mapInsert m ruleID true else m),
       !trackSuppressions && matchedAny filters ruleID) := by
  induction filters generalizing m with
  | nil => simp [applyFilters, matchedAny]
  | cons f rest ih =>
    by_cases hf : f ruleID
    · cases trackSuppressions with
      | false => simp [applyFilters, hf, matchedAny]
      | true =>
        simp only [applyFilters, hf, if_true, Bool.not_true, Bool.false_and,
          ih, matchedAny, List.any_cons, Bool.true_or]
        by_cases hrest : (rest.any fun f => f ruleID) = true <;>
          simp [hrest, mapInsert_mapInsert]
    · simp only [applyFilters, hf, Bool.false_eq_true, if_false, ih, matchedAny,
        List.any_cons]
      simp [hf]

theorem generateStep_eq (trackSuppressions : Bool) (filters : List RuleFilter)
    (acc : List (String × RuleDefinition) × List (String × Bool))
    (rule : RuleDefinition) :
    generateStep trackSuppressions filters acc rule =
      ((if trackSuppressions || !matchedAny filters rule.ID
          then mapInsert acc.1 rule.ID rule else acc.1),
       mapInsert acc.2 rule.ID (matchedAny filters rule.ID)) := by
  simp only [generateStep, applyFilters_eq]
  cases trackSuppressions <;> cases hm : matchedAny filters rule.ID <;>
    simp [mapInsert_mapInsert]

theorem generateFold_eq (track : Bool) (fs : List RuleFilter)
    (rules : List RuleDefinition)
    (rm : List (String × RuleDefinition)) (sm : List (String × Bool))
    (hnd : (rules.map (fun r => r.ID)).Nodup)
    (hrm : ∀ r ∈ rules, r.ID ∉ mapKeys rm)
    (hsm : ∀ r ∈ rules, r.ID ∉ mapKeys sm) :
    rules.foldl (generateStep track fs) (rm, sm) =
      (rm ++ (rules.filter fun r => track || !matchedAny fs r.ID).map
          (fun r => (r.ID, r)),
       sm ++ rules.map fun r => (r.ID, matchedAny fs r.ID)) := by
  induction rules generalizing rm sm with
  | nil => simp
  | cons r rest ih =>
    simp only [List.map_cons, List.nodup_cons] at hnd
    have hrm0 : r.ID ∉ mapKeys rm := hrm r (List.mem_cons_self r rest)
    have hsm0 : r.ID ∉ mapKeys sm := hsm r (List.mem_cons_self r rest)
    have hstep : generateStep track fs (rm, sm) r =
        ((if track || !matchedAny fs r.ID then rm ++ [(r.ID, r)] else rm),
         sm ++ [(r.ID, matchedAny fs r.ID)]) := by
      rw [generateStep_eq]
      simp only [mapInsert_fresh rm r.ID r hrm0, mapInsert_fresh sm r.ID _ hsm0]
    have hne : ∀ r2 ∈ rest, r2.ID ≠ r.ID := by
      intro r2 h2 hh
      exact hnd.1 (hh ▸ List.mem_map_of_mem (fun r => r.ID) h2)
    have hrm1 : ∀ r2 ∈ rest, r2.ID ∉ mapKeys
        (if track || !matchedAny fs r.ID then rm ++ [(r.ID, r)] else rm) := by
      intro r2 h2
      by_cases hc : (track || !matchedAny fs r.ID) = true <;>
        simp only [hc, if_true, Bool.false_eq_true, if_false, mapKeys,
          List.map_append, List.mem_append, List.map_cons, List.map_nil,
          List.mem_singleton]
      · rintro (h | h)
        · exact hrm r2 (List.mem_cons_of_mem r h2) h
        · exact hne r2 h2 h
      · exact hrm r2 (List.mem_cons_of_mem r h2)
    have hsm1 : ∀ r2 ∈ rest, r2.ID ∉ mapKeys (sm ++ [(r.ID, matchedAny fs r.ID)]) := by
      intro r2 h2
      simp only [mapKeys, List.map_append, List.mem_append, List.map_cons,
        List.map_nil, List.mem_singleton]
      rintro (h | h)
      · exact hsm r2 (List.mem_cons_of_mem r h2) h
      · exact hne r2 h2 h
    rw [List.foldl_cons, hstep, ih _ _ hnd.2 hrm1 hsm1]
    by_cases hc : (track || !matchedAny fs r.ID) = true <;>
      simp [hc, List.filter_cons]

/-- Closed-form characterisation of Generate: Rules holds, in catalog
order, the catalog entries that survive the filters (all of them when
trackSuppressions is true, the unmatched ones when it is false), keyed by
their ID; RuleSuppressed records, in catalog order, whether some filter
matched each ID. -/
theorem Generate_eq (track : Bool) (fs : List RuleFilter) :
    Generate track fs =
      { Rules := (rulesCatalog.filter fun r => track || !matchedAny fs r.ID).map
          (fun r => (r.ID, r)),
        RuleSuppressed := rulesCatalog.map fun r => (r.ID, matchedAny fs r.ID) } := by
  have hnd : (rulesCatalog.map (fun r => r.ID)).Nodup := by decide
  rw [Generate]
  rw [generateFold_eq track fs rulesCatalog [] [] hnd (by simp [mapKeys])
    (by simp [mapKeys])]
  simp

/-! ## Lookup lemmas for the two generated maps -/

theorem mapKeys_iff_lookup {α : Type} (m : List (String × α)) (k : String) :
    k ∈ mapKeys m ↔ mapLookup m k ≠ none := by
  induction m with
  | nil => simp [mapKeys, mapLookup]
  | cons hd tl ih =>
    obtain ⟨k2, v2⟩ := hd
    by_cases h2 : k2 = k
    · subst h2
      simp [mapKeys, mapLookup]
    · have h2b : k ≠ k2 := Ne.symm h2
      rw [mapKeys, List.map_cons]
      rw [mapLookup, if_neg h2]
      simp only [List.mem_cons]
      constructor
      · rintro (h | h)
        · exact absurd h h2b
        · exact ih.mp h
      · intro h
        exact Or.inr (ih.mpr h)

theorem mapLookup_map_byID {β : Type} (f : String → β)
    (l : List RuleDefinition) (id : String) :
    mapLookup (l.map fun r => (r.ID, f r.ID)) id =
      if id ∈ l.map (fun r => r.ID) then some (f id) else none := by
  induction l with
  | nil => simp [mapLookup]
  | cons r rest ih =>
    by_cases h2 : r.ID = id
    · subst h2
      simp [mapLookup]
    · have h2b : id ≠ r.ID := Ne.symm h2
      simp [mapLookup, h2, h2b, ih]

theorem mapLookup_filter_map (p : String → Bool) (l : List RuleDefinition)
    (id : String) :
    mapLookup ((l.filter fun r => p r.ID).map fun r => (r.ID, r)) id =
      if p id = true then mapLookup (l.map fun r => (r.ID, r)) id else none := by
  induction l with
  | nil => simp [mapLookup]
  | cons r rest ih =>
    by_cases hp : p r.ID = true
    · by_cases h2 : r.ID = id
      · subst h2
        simp [List.filter_cons, hp, mapLookup]
      · have h2b : id ≠ r.ID := Ne.symm h2
        simp [List.filter_cons, hp, mapLookup, h2, h2b, ih]
    · by_cases h2 : r.ID = id
      · subst h2
        simp [List.filter_cons, hp, ih]
      · have h2b : id ≠ r.ID := Ne.symm h2
        simp [List.filter_cons, hp, mapLookup, h2, h2b, ih]

theorem mapLookup_map_self_isSome (l : List RuleDefinition) (id : String) :
    mapLookup (l.map fun r => (r.ID, r)) id ≠ none ↔
      id ∈ l.map (fun r => r.ID) := by
  induction l with
  | nil => simp [mapLookup]
  | cons r rest ih =>
    by_cases h2 : r.ID = id
    · subst h2
      simp [mapLookup]
    · have h2b : id ≠ r.ID := Ne.symm h2
      simp [mapLookup, h2, h2b, ih]

theorem mapLookup_map_self_mem (l : List RuleDefinition) (id : String)
    (r2 : RuleDefinition)
    (h : mapLookup (l.map fun r => (r.ID, r)) id = some r2) :
    r2.ID = id ∧ r2 ∈ l := by
  induction l with
  | nil => simp [mapLookup] at h
  | cons r rest ih =>
    by_cases h2 : r.ID = id
    · subst h2
      simp [mapLookup] at h
      subst h
      exact ⟨rfl, List.mem_cons_self r rest⟩
    · simp only [List.map_cons, mapLookup, if_neg h2] at h
      obtain ⟨ha, hb⟩ := ih h
      exact ⟨ha, List.mem_cons_of_mem r hb⟩

/-- The behaviour of a NewRuleFilter closure: it returns the action flag
exactly on members of its target set and the negated flag elsewhere. -/
theorem NewRuleFilter_eq (action : Bool) (ruleIDs : List String) (x : String) :
    NewRuleFilter action ruleIDs x = if x ∈ ruleIDs then action else !action := by
  have hfold : ∀ (ids : List String) (m : List (String × Bool)),
      mapLookup (ids.foldl (fun m rule => mapInsert m rule true) m) x =
        if x ∈ ids then some true else mapLookup m x := by
    intro ids
    induction ids with
    | nil => simp
    | cons r rest ih =>
      intro m
      rw [List.foldl_cons, ih]
      rw [mapLookup_mapInsert]
      by_cases h1 : x ∈ rest
      · simp [h1]
      · by_cases h2 : r = x
        · subst h2
          simp [h1]
        · have h2b : x ≠ r := Ne.symm h2
          simp [h1, h2, h2b]
  rw [NewRuleFilter]
  simp only [hfold ruleIDs [], mapLookup]
  by_cases hx : x ∈ ruleIDs <;> simp [hx]

/-- Pointwise equal ID predicates filter the catalog identically. -/
theorem filter_byID_congr (p q : String → Bool) (l : List RuleDefinition)
    (h : ∀ r ∈ l, p r.ID = q r.ID) :
    l.filter (fun r => p r.ID) = l.filter (fun r => q r.ID) := by
  induction l with
  | nil => rfl
  | cons r rest ih =>
    have hr := h r (List.mem_cons_self r rest)
    have hrest := ih fun r2 h2 => h r2 (List.mem_cons_of_mem r h2)
    simp [List.filter_cons, hr, hrest]

/-- Pointwise equal ID functions tabulate identically over the catalog. -/
theorem map_byID_congr {β : Type} (f g : String → β) (l : List RuleDefinition)
    (h : ∀ r ∈ l, f r.ID = g r.ID) :
    l.map (fun r => (r.ID, f r.ID)) = l.map (fun r => (r.ID, g r.ID)) := by
  induction l with
  | nil => rfl
  | cons r rest ih =>
    have hr := h r (List.mem_cons_self r rest)
    have hrest := ih fun r2 h2 => h r2 (List.mem_cons_of_mem r h2)
    simp [hr, hrest]

theorem Generate_Rules_eq (track : Bool) (fs : List RuleFilter) :
    (Generate track fs).Rules =
      (rulesCatalog.filter fun r => track || !matchedAny fs r.ID).map
        (fun r => (r.ID, r)) := by
  rw [Generate_eq]

theorem Generate_RuleSuppressed_eq (track : Bool) (fs : List RuleFilter) :
    (Generate track fs).RuleSuppressed =
      rulesCatalog.map fun r => (r.ID, matchedAny fs r.ID) := by
  rw [Generate_eq]

theorem Generate_lookup_suppressed (track : Bool) (fs : List RuleFilter)
    (id : String) :
    mapLookup (Generate track fs).RuleSuppressed id =
      if id ∈ catalogIDs then some (matchedAny fs id) else none := by
  rw [Generate_RuleSuppressed_eq]
  exact mapLookup_map_byID (matchedAny fs) rulesCatalog id

theorem Generate_lookup_rules (track : Bool) (fs : List RuleFilter)
    (id : String) :
    mapLookup (Generate track fs).Rules id =
      if (track || !matchedAny fs id) = true
        then mapLookup (rulesCatalog.map fun r => (r.ID, r)) id else none := by
  rw [Generate_Rules_eq]
  exact mapLookup_filter_map (fun s => track || !matchedAny fs s) rulesCatalog id

/-! ## Claims -/

/-- Claim C2: for every action flag, ID set and string, the predicate built
by NewRuleFilter returns the action flag exactly on members of the ID set
and the negated flag on every other string, and is a pure function of the
action flag and the ID set alone. -/
theorem NewRuleFilter_membership (action : Bool) (ids : List String)
    (x : String) :
    NewRuleFilter action ids x = if x ∈ ids then action else !action :=
  NewRuleFilter_eq action ids x

/-- Claim C1: with trackSuppressions false, every catalog rule matched by at
least one filter is absent from the Rules map of the returned RuleList; with
trackSuppressions true every catalog rule is present; in particular
Generate true [NewRuleFilter true [G101]] keeps G101 in Rules while
recording RuleSuppressed[G101] = true simultaneously. -/
theorem Generate_tracking_modes (filters : List RuleFilter) (id : String)
    (hid : id ∈ catalogIDs) :
    (matchedAny filters id = true →
      mapLookup (Generate false filters).Rules id = none) ∧
    mapLookup (Generate true filters).Rules id ≠ none ∧
    mapLookup (Generate true [NewRuleFilter true ["G101"]]).Rules "G101" ≠ none ∧
    mapLookup (Generate true [NewRuleFilter true ["G101"]]).RuleSuppressed "G101"
      = some true := by
  refine ⟨?_, ?_, by decide, by decide⟩
  · intro hm
    rw [Generate_lookup_rules]
    simp [hm]
  · rw [Generate_lookup_rules]
    simp only [Bool.true_or, if_true]
    exact (mapLookup_map_self_isSome rulesCatalog id).mpr hid

theorem Generate_tracking_modes_witness :
    mapLookup (Generate false [NewRuleFilter true ["G101"]]).Rules "G101" = none ∧
    mapLookup (Generate true [NewRuleFilter true ["G101"]]).Rules "G101" ≠ none :=
  ⟨(Generate_tracking_modes [NewRuleFilter true ["G101"]] "G101" (by decide)).1
      (by decide),
   (Generate_tracking_modes [NewRuleFilter true ["G101"]] "G101" (by decide)).2.1⟩

/-- Claim C3: Generate false [NewRuleFilter true [G101]] drops G101 from
Rules, records RuleSuppressed[G101] = true, and leaves every other catalog
ID present in Rules with RuleSuppressed false. -/
theorem Generate_exclude_g101 :
    mapLookup (Generate false [NewRuleFilter true ["G101"]]).Rules "G101"
      = none ∧
    mapLookup (Generate false [NewRuleFilter true ["G101"]]).RuleSuppressed
      "G101" = some true ∧
    ∀ id, id ∈ catalogIDs → id ≠ "G101" →
      mapLookup (Generate false [NewRuleFilter true ["G101"]]).Rules id
        ≠ none ∧
      mapLookup (Generate false [NewRuleFilter true ["G101"]]).RuleSuppressed
        id = some false := by
  refine ⟨by decide, by decide, ?_⟩
  intro id hid hne
  have hm : matchedAny [NewRuleFilter true ["G101"]] id = false := by
    simp [matchedAny, NewRuleFilter_eq, hne]
  constructor
  · rw [Generate_lookup_rules]
    simp only [hm, Bool.not_false, Bool.or_true, if_true]
    exact (mapLookup_map_self_isSome rulesCatalog id).mpr hid
  · rw [Generate_lookup_suppressed]
    simp [hid, hm]

theorem Generate_exclude_g101_witness :
    mapLookup (Generate false [NewRuleFilter true ["G101"]]).Rules "G102"
      ≠ none ∧
    mapLookup (Generate false [NewRuleFilter true ["G101"]]).RuleSuppressed
      "G102" = some false :=
  Generate_exclude_g101.2.2 "G102" (by decide) (by decide)

/-- Claim C4: Generate false [NewRuleFilter false [G101]] keeps exactly the
single key G101 in Rules, with RuleSuppressed true for every other catalog
ID and false for G101. -/
theorem Generate_include_only_g101 :
    mapKeys (Generate false [NewRuleFilter false ["G101"]]).Rules = ["G101"] ∧
    mapLookup (Generate false [NewRuleFilter false ["G101"]]).RuleSuppressed
      "G101" = some false ∧
    ∀ id, id ∈ catalogIDs → id ≠ "G101" →
      mapLookup (Generate false [NewRuleFilter false ["G101"]]).RuleSuppressed
        id = some true := by
  refine ⟨by decide, by decide, ?_⟩
  intro id hid hne
  have hm : matchedAny [NewRuleFilter false ["G101"]] id = true := by
    simp [matchedAny, NewRuleFilter_eq, hne]
  rw [Generate_lookup_suppressed]
  simp [hid, hm]

theorem Generate_include_only_g101_witness :
    mapLookup (Generate false [NewRuleFilter false ["G101"]]).RuleSuppressed
      "G102" = some true :=
  Generate_include_only_g101.2.2 "G102" (by decide) (by decide)

/-- Claim C5 counterexample: the suppression ledger of any Generate call has
exactly one entry per catalog ID, but the hard-coded catalog has 37 IDs, not
33 as the claim counts them. -/
theorem Generate_ledger_not_33 :
    (mapKeys (Generate false []).RuleSuppressed).Nodup ∧
    (mapKeys (Generate false []).RuleSuppressed).length = 37 ∧
    (37 : Nat) ≠ 33 :=
  ⟨by decide, by decide, by decide⟩

/-- Claim C5 (amended): for every trackSuppressions flag and every filter
sequence, the key list of the returned RuleSuppressed map is exactly the
list of the 37 hard-coded catalog IDs, one entry each, no more and no
fewer. -/
theorem Generate_ledger_keys (track : Bool) (filters : List RuleFilter) :
    mapKeys (Generate track filters).RuleSuppressed = catalogIDs ∧
    catalogIDs.length = 37 ∧ catalogIDs.Nodup := by
  refine ⟨?_, by decide, by decide⟩
  rw [Generate_RuleSuppressed_eq, mapKeys, List.map_map]
  rfl

/-- Claim C6: the RuleSuppressed map is invariant under swapping the two
filters, and in general the recorded flag for a catalog ID is true exactly
when at least one supplied filter returns true on it, despite the early
exit of the generator when trackSuppressions is false. -/
theorem Generate_suppressed_or_comm (track track2 : Bool) (A B : RuleFilter)
    (filters : List RuleFilter) (id : String) (hid : id ∈ catalogIDs) :
    (Generate track [A, B]).RuleSuppressed
      = (Generate track [B, A]).RuleSuppressed ∧
    mapLookup (Generate track2 filters).RuleSuppressed id
      = some (matchedAny filters id) ∧
    (matchedAny filters id = true ↔ ∃ f ∈ filters, f id = true) := by
  refine ⟨?_, ?_, ?_⟩
  · rw [Generate_RuleSuppressed_eq, Generate_RuleSuppressed_eq]
    refine map_byID_congr (matchedAny [A, B]) (matchedAny [B, A]) rulesCatalog
      (fun r _ => ?_)
    simp only [matchedAny, List.any_cons, List.any_nil, Bool.or_false]
    exact Bool.or_comm _ _
  · rw [Generate_lookup_suppressed]
    simp [hid]
  · simp [matchedAny, List.any_eq_true]

theorem Generate_suppressed_or_comm_witness :
    (Generate false [NewRuleFilter true ["G101"], NewRuleFilter false ["G102"]]).RuleSuppressed
      = (Generate false [NewRuleFilter false ["G102"], NewRuleFilter true ["G101"]]).RuleSuppressed ∧
    mapLookup (Generate true [NewRuleFilter true ["G101"]]).RuleSuppressed "G101"
      = some (matchedAny [NewRuleFilter true ["G101"]] "G101") :=
  ⟨(Generate_suppressed_or_comm false true (NewRuleFilter true ["G101"])
      (NewRuleFilter false ["G102"]) [NewRuleFilter true ["G101"]] "G101"
      (by decide)).1,
   (Generate_suppressed_or_comm false true (NewRuleFilter true ["G101"])
      (NewRuleFilter false ["G102"]) [NewRuleFilter true ["G101"]] "G101"
      (by decide)).2.1⟩

/-- Key-set behaviour of the builders fold of RulesInfo: a key appears in
the folded map exactly when it was already present or some stored
definition carries it as its ID field. -/
theorem mapKeys_buildersFold (l : List (String × RuleDefinition))
    (b : List (String × RuleBuilder)) (x : String) :
    x ∈ mapKeys (l.foldl (fun builders kv =>
        mapInsert builders kv.2.ID kv.2.Create) b) ↔
      x ∈ mapKeys b ∨ ∃ kv ∈ l, kv.2.ID = x := by
  induction l generalizing b with
  | nil => simp
  | cons kv rest ih =>
    rw [List.foldl_cons, ih]
    rw [mapKeys_mapInsert_mem]
    simp only [List.exists_mem_cons_iff]
    constructor
    · rintro ((h | h) | h)
      · exact Or.inr (Or.inl h.symm)
      · exact Or.inl h
      · exact Or.inr (Or.inr h)
    · rintro (h | h | h)
      · exact Or.inl (Or.inr h)
      · exact Or.inl (Or.inl h.symm)
      · exact Or.inr h

/-- Claim C7 counterexample: RulesInfo keys the builders map by each stored
definition's own ID field, so a RuleList whose Rules map stores a
definition under a key different from its ID yields a builders map with a
different key set than Rules. -/
theorem RulesInfo_key_mismatch :
    mapKeys badRuleList.RulesInfo.1 ≠ mapKeys badRuleList.Rules := by
  decide

/-- Claim C7 (amended): for every RuleList whose Rules map stores each
definition under its own ID (as every RuleList produced by Generate does),
RulesInfo returns a builders map with the same key set as Rules together
with the RuleSuppressed map unchanged; the call is pure and always
succeeds. -/
theorem RulesInfo_key_sets (rl : RuleList)
    (h : ∀ kv ∈ rl.Rules, kv.2.ID = kv.1) :
    (∀ x, x ∈ mapKeys rl.RulesInfo.1 ↔ x ∈ mapKeys rl.Rules) ∧
    rl.RulesInfo.2 = rl.RuleSuppressed := by
  refine ⟨fun x => ?_, rfl⟩
  show x ∈ mapKeys (rl.Rules.foldl (fun builders kv =>
      mapInsert builders kv.2.ID kv.2.Create) []) ↔ x ∈ mapKeys rl.Rules
  rw [mapKeys_buildersFold]
  simp only [mapKeys, List.mem_map]
  constructor
  · rintro (h0 | ⟨kv, hkv, hid⟩)
    · simp [mapKeys] at h0
    · exact ⟨kv, hkv, (h kv hkv).symm.trans hid⟩
  · rintro ⟨kv, hkv, hfst⟩
    exact Or.inr ⟨kv, hkv, (h kv hkv).trans hfst⟩

theorem RulesInfo_key_sets_witness :
    ("G101" ∈ mapKeys (Generate false []).RulesInfo.1 ↔
      "G101" ∈ mapKeys (Generate false []).Rules) ∧
    (Generate false []).RulesInfo.2 = (Generate false []).RuleSuppressed :=
  ⟨(RulesInfo_key_sets (Generate false []) (by decide)).1 "G101",
   (RulesInfo_key_sets (Generate false []) (by decide)).2⟩

/-- Claim C8: adding a string that is no catalog ID to (or removing it
from) the target set of any NewRuleFilter in the filter sequence leaves the
entire Generate result unchanged, for every trackSuppressions flag. -/
theorem Generate_unknown_id_inert (track action : Bool) (ids : List String)
    (u : String) (pre post : List RuleFilter) (hu : u ∉ catalogIDs) :
    Generate track (pre ++ NewRuleFilter action (u :: ids) :: post) =
      Generate track (pre ++ NewRuleFilter action ids :: post) := by
  have hagree : ∀ r ∈ rulesCatalog,
      matchedAny (pre ++ NewRuleFilter action (u :: ids) :: post) r.ID =
        matchedAny (pre ++ NewRuleFilter action ids :: post) r.ID := by
    intro r hr
    have hne : r.ID ≠ u := by
      intro hh
      exact hu (hh ▸ List.mem_map_of_mem (fun r => r.ID) hr)
    have hfv : NewRuleFilter action (u :: ids) r.ID
        = NewRuleFilter action ids r.ID := by
      rw [NewRuleFilter_eq, NewRuleFilter_eq]
      simp [List.mem_cons, hne]
    simp [matchedAny, List.any_append, List.any_cons, hfv]
  rw [Generate_eq, Generate_eq]
  have h1 : (rulesCatalog.filter fun r => track ||
        !matchedAny (pre ++ NewRuleFilter action (u :: ids) :: post) r.ID) =
      (rulesCatalog.filter fun r => track ||
        !matchedAny (pre ++ NewRuleFilter action ids :: post) r.ID) :=
    filter_byID_congr
      (fun s => track || !matchedAny (pre ++ NewRuleFilter action (u :: ids) :: post) s)
      (fun s => track || !matchedAny (pre ++ NewRuleFilter action ids :: post) s)
      rulesCatalog (fun r hr => by simp only [hagree r hr])
  have h2 : (rulesCatalog.map fun r => (r.ID,
        matchedAny (pre ++ NewRuleFilter action (u :: ids) :: post) r.ID)) =
      rulesCatalog.map fun r => (r.ID,
        matchedAny (pre ++ NewRuleFilter action ids :: post) r.ID) :=
    map_byID_congr
      (matchedAny (pre ++ NewRuleFilter action (u :: ids) :: post))
      (matchedAny (pre ++ NewRuleFilter action ids :: post))
      rulesCatalog (fun r hr => hagree r hr)
  rw [h1, h2]

theorem Generate_unknown_id_inert_witness :
    Generate false [NewRuleFilter true ["G999", "G101"]] =
      Generate false [NewRuleFilter true ["G101"]] :=
  Generate_unknown_id_inert false true ["G101"] "G999" [] [] (by decide)

/-- Claim C9: every RuleList returned by Generate is self-consistently
keyed: a definition stored under key k has ID k and is the catalog entry
of that ID, and every key of Rules is also a key of RuleSuppressed. -/
theorem Generate_rules_entries (track : Bool) (filters : List RuleFilter)
    (k : String) (r : RuleDefinition)
    (h : mapLookup (Generate track filters).Rules k = some r) :
    r.ID = k ∧ r ∈ rulesCatalog ∧
    k ∈ mapKeys (Generate track filters).RuleSuppressed := by
  rw [Generate_lookup_rules] at h
  by_cases hc : (track || !matchedAny filters k) = true
  · rw [if_pos hc] at h
    obtain ⟨ha, hb⟩ := mapLookup_map_self_mem rulesCatalog k r h
    refine ⟨ha, hb, ?_⟩
    rw [mapKeys_iff_lookup, Generate_lookup_suppressed]
    have hk : k ∈ catalogIDs := ha ▸ List.mem_map_of_mem (fun r => r.ID) hb
    simp [hk]
  · rw [if_neg hc] at h
    exact absurd h (by simp)

theorem Generate_rules_entries_witness :
    (⟨"G101", "Look for hardcoded credentials",
        RuleBuilder.NewHardcodedCredentials⟩ : RuleDefinition).ID = "G101" ∧
    (⟨"G101", "Look for hardcoded credentials",
        RuleBuilder.NewHardcodedCredentials⟩ : RuleDefinition) ∈ rulesCatalog ∧
    "G101" ∈ mapKeys (Generate false []).RuleSuppressed :=
  Generate_rules_entries false [] "G101"
    ⟨"G101", "Look for hardcoded credentials",
      RuleBuilder.NewHardcodedCredentials⟩ (by decide)

/-- Claim C10: with trackSuppressions false, a catalog ID is a key of the
returned Rules map exactly when its recorded suppressed flag is false, for
every filter sequence. -/
theorem Generate_active_iff_unsuppressed (filters : List RuleFilter)
    (id : String) (hid : id ∈ catalogIDs) :
    (mapLookup (Generate false filters).Rules id ≠ none ↔
      mapLookup (Generate false filters).RuleSuppressed id = some false) := by
  rw [Generate_lookup_rules, Generate_lookup_suppressed]
  cases hm : matchedAny filters id
  · simp only [hm, Bool.not_false, Bool.or_true, if_true, if_pos hid]
    simp only [Option.some.injEq, iff_true]
    exact (mapLookup_map_self_isSome rulesCatalog id).mpr hid
  · simp [hid, hm]

theorem Generate_active_iff_unsuppressed_witness :
    (mapLookup (Generate false []).Rules "G101" ≠ none ↔
      mapLookup (Generate false []).RuleSuppressed "G101" = some false) :=
  Generate_active_iff_unsuppressed [] "G101" (by decide)

end rules
